import Mathlib

/-!
Shallow embedding of the research-agent pipeline (search_agent.py,
utils/__init__.py, app.py) and proofs about its specification.

External effects are passed in explicitly: search tools as their
per-call outcomes, page fetches as an elapsed time plus a transport
outcome, and the language model as the string or plan it returns.
-/

namespace ResearchAgent

/-- Python character-level slice s[:n]. -/
def pyTake (n : Nat) (s : String) : String := ⟨s.data.take n⟩

/-- Python str.strip(chars): remove characters of the set from both ends. -/
def pyStrip (chars : String) (s : String) : String :=
  ⟨((s.data.dropWhile (· ∈ chars.data)).reverse.dropWhile (· ∈ chars.data)).reverse⟩

/-- The whitespace characters Python str.strip() removes by default. -/
def pyIsSpace (c : Char) : Bool :=
  c = ' ' || c = '\t' || c = '\n' || c = '\x0b' || c = '\x0c' || c = '\r'

/-- Python str.strip() with no argument: trim whitespace from both ends. -/
def pyStripWs (s : String) : String :=
  ⟨((s.data.dropWhile pyIsSpace).reverse.dropWhile pyIsSpace).reverse⟩

/-- Helper for pySplit: scan the character list, cutting at every
occurrence of the separator, with a fuel bound that keeps the recursion
structural; the fuel never runs out when it exceeds the input length. -/
def pySplitAux (sep : List Char) : Nat → List Char → List Char → List (List Char)
  | 0, _, acc => [acc.reverse]
  | _ + 1, [], acc => [acc.reverse]
  | fuel + 1, c :: rest, acc =>
    if sep.isPrefixOf (c :: rest) then
      acc.reverse :: pySplitAux sep fuel (List.drop (sep.length - 1) rest) []
    else pySplitAux sep fuel rest (c :: acc)

/-- Python str.split(sep) for a non-empty separator: split at every
non-overlapping occurrence of sep, scanning left to right, keeping
empty segments. -/
def pySplit (sep s : String) : List String :=
  (pySplitAux sep.data (s.data.length + 1) s.data []).map fun l => ⟨l⟩

/-- One markup element as the extractor sees it: its tag name and its
text with surrounding whitespace stripped.  The removal of
script/style/nav/footer/aside/noscript elements and the flattening done
by get_text are abstracted into the field values. -/
structure Element where
  tag : String
  text : String
  deriving DecidableEq, Repr

/-- The parsed document as extract_clean_text consumes it: the element
lists found under the first article tag, the first main tag, and the
body, each absent when the document has no such region. -/
structure Html where
  article : Option (List Element)
  mainTag : Option (List Element)
  body : Option (List Element)
  deriving DecidableEq, Repr

/-- The tags find_all keeps in extract_clean_text: paragraphs and the
h1/h2/h3 headings. -/
def contentTags : List String := ["p", "h1", "h2", "h3"]

/-- extract_clean_text from utils: pick the article region, else the
main region, else the body; join with newlines the stripped text of the
kept elements whose text is longer than 40 characters; return the first
1200 characters, or the empty string when no region exists. -/
def extract_clean_text (h : Html) : String :=
  match (h.article.orElse fun _ => h.mainTag).orElse fun _ => h.body with
  | none => ""
  | some elems =>
    pyTake 1200 (String.intercalate "\n"
      ((elems.filter fun p => contentTags.contains p.tag && decide (40 < p.text.length)).map
        Element.text))

/-- The timeout passed to every page fetch in fetch_page. -/
def fetchTimeout : Nat := 6

/-- What the transport returned for one URL: a raised transport error,
or a response with a status code and a document body. -/
inductive FetchOutcome where
  | transportError : FetchOutcome
  | response (status : Nat) (html : Html) : FetchOutcome
  deriving DecidableEq, Repr

/-- fetch_page from utils, with the elapsed time and the transport
outcome supplied as inputs.  Exceeding the timeout or any transport
failure is caught and yields none; a non-200 status or an empty
extraction falls through to none; otherwise the URL is returned with
the extracted text. -/
def fetch_page (url : String) (elapsed : Nat) (out : FetchOutcome) :
    Option (String × String) :=
  if fetchTimeout < elapsed then none
  else
    match out with
    | .transportError => none
    | .response status html =>
      if status = 200 then
        let text := extract_clean_text html
        if text ≠ "" then some (url, text) else none
      else none

/-- The fetch fan-out inside search_node: one fetch_page per URL, keeping
only the truthy (non-None) results, in URL order. -/
def fetch_all (fetches : List (String × Nat × FetchOutcome)) : List (String × String) :=
  (fetches.map fun f => fetch_page f.1 f.2.1 f.2.2).filterMap id

/-- call_search_tools from search_agent, with each registered tool's
outcome supplied as input: none models a raised exception, some carries
the (texts, urls) the tool returned.  Exceptions are skipped and the
successful contributions are appended in registration order. -/
def call_search_tools (results : List (Option (List String × List String))) :
    List String × List String :=
  results.foldl
    (fun acc r =>
      match r with
      | none => acc
      | some (t, u) => (acc.1 ++ t, acc.2 ++ u))
    ([], [])

/-- The depth mode of a run. -/
inductive Mode where
  | shallow : Mode
  | deep : Mode
  deriving DecidableEq, Repr

/-- ResearchState from schema: the single record threaded through the
pipeline.  The advisory confidence_score field is carried unchanged by
every node and is not modelled. -/
structure ResearchState where
  topic : String
  mode : Mode
  plan : List String := []
  remaining_subtopics : List String := []
  extracted_notes : List (String × String) := []
  validated_notes : List String := []
  validated_sources : List String := []
  depth : Int := 0
  max_depth : Int := 1
  final_report : String := ""
  deriving DecidableEq, Repr

/-- ResearchPlan from schema: the structured planner output. -/
structure ResearchPlan where
  subtopics : List String
  depth_required : Int
  requires_math : Bool
  requires_sources : Bool
  deriving DecidableEq, Repr

/-- The state a run starts from: ResearchState(topic=query, mode=mode)
with every other field at its schema default. -/
def initState (topic : String) (mode : Mode) : ResearchState :=
  { topic := topic, mode := mode }

/-- plan_node, with the planner chain's structured reply supplied as
input: stores the subtopics, a working copy of them, and the depth
budget. -/
def plan_node (p : ResearchPlan) (s : ResearchState) : ResearchState :=
  { s with
    plan := p.subtopics
    remaining_subtopics := p.subtopics
    max_depth := p.depth_required }

/-- The environment of one search_node call: the outcomes of the
registered search tools for the popped subtopic, and per URL position
the elapsed time and transport outcome of its page fetch. -/
structure SearchEnv where
  toolResults : List (Option (List String × List String))
  fetchEnv : Nat → Nat × FetchOutcome

/-- search_node: a no-op when no subtopic remains; otherwise increments
depth, pops the front subtopic, searches it (the returned texts are
discarded, only URLs are kept), fetches every URL and appends each
non-None fetch result to extracted_notes. -/
def search_node (env : SearchEnv) (s : ResearchState) : ResearchState :=
  match s.remaining_subtopics with
  | [] => s
  | _ :: rest =>
    let urls := (call_search_tools env.toolResults).2
    let fetches := urls.enum.map fun iu => (iu.2, env.fetchEnv iu.1)
    { s with
      depth := s.depth + 1
      remaining_subtopics := rest
      extracted_notes := s.extracted_notes ++ fetch_all fetches }

/-- The body of the for-loop in validate_node, folded over
extracted_notes.  The accumulator is (seen, validated_notes,
validated_sources); a note text already seen contributes nothing, a new
one is marked seen and appended to both output lists. -/
def validateStep (acc : List String × List String × List String) (p : String × String) :
    List String × List String × List String :=
  if acc.1.contains p.2 then acc
  else (p.2 :: acc.1, acc.2.1 ++ [p.2], acc.2.2 ++ [p.1])

/-- validate_node: scans the full extracted_notes with a fresh empty
seen-set, appending each first occurrence of a note text, and its URL,
to the existing validated lists. -/
def validate_node (s : ResearchState) : ResearchState :=
  let r := s.extracted_notes.foldl validateStep
    ([], s.validated_notes, s.validated_sources)
  { s with validated_notes := r.2.1, validated_sources := r.2.2 }

/-- synthesize_node, with the language model's reply supplied as input:
the prompt built from the validated lists is abstracted away and the
reply is stored as the final report. -/
def synthesize_node (report : String) (s : ResearchState) : ResearchState :=
  { s with final_report := report }

/-- should_continue from search_agent: loop back to search while the
depth budget is not exhausted and subtopics remain. -/
def should_continue (s : ResearchState) : Bool :=
  decide (s.depth < s.max_depth) && decide (0 < s.remaining_subtopics.length)

/-- One pipeline step: any node of the graph applied under any
environment.  Reachability over this relation covers every state any
node sequence can produce. -/
inductive Step : ResearchState → ResearchState → Prop where
  | plan (p : ResearchPlan) (s : ResearchState) : Step s (plan_node p s)
  | search (env : SearchEnv) (s : ResearchState) : Step s (search_node env s)
  | validate (s : ResearchState) : Step s (validate_node s)
  | synthesize (report : String) (s : ResearchState) : Step s (synthesize_node report s)

/-- A state is reachable when some sequence of pipeline steps produces
it from the initial state of a run. -/
def Reachable (topic : String) (mode : Mode) (s : ResearchState) : Prop :=
  Relation.ReflTransGen Step (initState topic mode) s

/-- The compiled graph's search-validate loop: run one search+validate
pair (the plan-to-search edge is unconditional) and repeat while
should_continue holds, re-checked after every pair.  Iteration i uses
environment envs i; the fuel argument only bounds the recursion and
never runs out when it exceeds the number of remaining subtopics.
Returns how many times the loop body ran, and the exit state. -/
def loopRun (envs : Nat → SearchEnv) : Nat → Nat → ResearchState → Nat × ResearchState
  | 0, _, s => (0, s)
  | fuel + 1, i, s =>
    let s1 := validate_node (search_node (envs i) s)
    if should_continue s1 then
      let r := loopRun envs fuel (i + 1) s1
      (r.1 + 1, r.2)
    else (1, s1)

/-- One full scheduled run of the compiled graph: plan once, loop
search+validate, synthesize once.  Returns the loop-body count and the
final state. -/
def runPipeline (p : ResearchPlan) (envs : Nat → SearchEnv) (report : String)
    (topic : String) (mode : Mode) : Nat × ResearchState :=
  let s1 := plan_node p (initState topic mode)
  let r := loopRun envs (s1.remaining_subtopics.length + 1) 0 s1
  (r.1, synthesize_node report r.2)

/-- One claim entry of the final_result event payload in app.py. -/
structure ClaimEntry where
  id : String
  statement : String
  source : String
  support_score : Nat
  has_contradiction : Bool
  deriving DecidableEq, Repr

/-- The confidence block of the final_result event payload. -/
structure ConfidenceBlock where
  score : Nat
  reasoning_summary : String
  evidence_summary : String
  deriving DecidableEq, Repr

/-- The state object of the final_result event payload. -/
structure FinalResultPayload where
  claims : List ClaimEntry
  confidence : ConfidenceBlock
  final_report : String
  deriving DecidableEq, Repr

/-- The separator the source passes to split inside the event generator:
the literal two-character sequence backslash n, because the source reads
split("\\n") with a doubled backslash. -/
def reportSeparator : String := "\\n"

/-- The final_result payload built by event_generator in app.py once
final_report is truthy: the report is split on reportSeparator, the
first three segments are kept, the blank ones among them are dropped,
and each survivor becomes a claim identified by its index among those
three segments, with leading and trailing hyphen-or-space characters
stripped, a fixed support score of 85 and no contradiction flag; the
confidence block has score 88, a fixed reasoning summary and an
evidence summary counting validated_sources; the full report text is
attached. -/
def mkFinalResult (final_report : String) (validated_sources : List String) :
    FinalResultPayload :=
  { claims :=
      ((pySplit reportSeparator final_report).take 3).enum.filterMap fun il =>
        if pyStripWs il.2 ≠ "" then
          some
            { id := "CL-" ++ toString il.1
              statement := pyStrip "- " il.2
              source := "Validated Source"
              support_score := 85
              has_contradiction := false }
        else none
    confidence :=
      { score := 88
        reasoning_summary := "High correlation across validated search indices."
        evidence_summary := "Based on " ++ toString validated_sources.length ++ " sources." }
    final_report := final_report }

/-- The final_result payload as the spec describes it: the first three
non-blank lines of the report (split on the newline character), reframed
as claims identified CL-0, CL-1, CL-2 in order, with the same fixed
placeholder fields, confidence block and attached report. -/
def mkFinalResultClaimed (final_report : String) (validated_sources : List String) :
    FinalResultPayload :=
  { claims :=
      (((pySplit "\n" final_report).filter fun l => pyStripWs l ≠ "").take 3).enum.map
        fun il =>
          { id := "CL-" ++ toString il.1
            statement := pyStrip "- " il.2
            source := "Validated Source"
            support_score := 85
            has_contradiction := false }
    confidence :=
      { score := 88
        reasoning_summary := "High correlation across validated search indices."
        evidence_summary := "Based on " ++ toString validated_sources.length ++ " sources." }
    final_report := final_report }

/-- The final_result payload as the amended claim describes it: among
the first three segments of the report split on the literal
backslash-n sequence, the non-blank ones, each identified by its
segment index. -/
def mkFinalResultAmended (final_report : String) (validated_sources : List String) :
    FinalResultPayload :=
  { claims :=
      (((pySplit reportSeparator final_report).take 3).enum.filter fun il =>
          pyStripWs il.2 ≠ "").map
        fun il =>
          { id := "CL-" ++ toString il.1
            statement := pyStrip "- " il.2
            source := "Validated Source"
            support_score := 85
            has_contradiction := false }
    confidence :=
      { score := 88
        reasoning_summary := "High correlation across validated search indices."
        evidence_summary := "Based on " ++ toString validated_sources.length ++ " sources." }
    final_report := final_report }

/-- How the one-shot research run ends inside the try block of the
/research_agent handler: a returned final state, or one of the
exception families its except clauses distinguish. -/
inductive RunOutcome where
  | ok (s : ResearchState) : RunOutcome
  | connectionError (msg : String) : RunOutcome
  | runtimeError (msg : String) : RunOutcome
  | otherError (msg : String) : RunOutcome

/-- The error kinds the request boundary in app.py can report. -/
inductive APIErrorKind where
  | missingQuery : APIErrorKind
  | llmProvider : APIErrorKind
  | agentUnavailable : APIErrorKind
  | searchTool : APIErrorKind
  | synthesisError : APIErrorKind
  | internal : APIErrorKind
  deriving DecidableEq, Repr

/-- Python substring membership needle in hay. -/
def pyIn (needle hay : String) : Bool :=
  decide (needle.data <:+: hay.data)

/-- The keyword dispatch of the catch-all except clause in the
/research_agent handler, over the lowercased exception text. -/
def classifyOther (msg : String) : APIErrorKind :=
  let m := msg.toLower
  if pyIn "search" m || pyIn "tavily" m || pyIn "ddgs" m then .searchTool
  else if pyIn "synthesis" m || pyIn "synthesize" m then .synthesisError
  else .internal

/-- The success record the /research_agent handler returns (the nested
synthesize block, minus the fixed confidence placeholder). -/
structure SyncResult where
  topic : String
  plan : List String
  validated_notes : List String
  validated_sources : List String
  final_report : String
  deriving DecidableEq, Repr

/-- The /research_agent request boundary: reject a blank query, map
each exception family to its error kind, and otherwise apply the
postcondition check — a final state whose final_report is empty is
reported as a synthesis error, never returned as a success. -/
def research (query : String) (outcome : RunOutcome) : Except APIErrorKind SyncResult :=
  if pyStripWs query = "" then .error .missingQuery
  else
    match outcome with
    | .connectionError _ => .error .llmProvider
    | .runtimeError _ => .error .agentUnavailable
    | .otherError msg => .error (classifyOther msg)
    | .ok s =>
      if s.final_report = "" then .error .synthesisError
      else
        .ok
          { topic := s.topic
            plan := s.plan
            validated_notes := s.validated_notes
            validated_sources := s.validated_sources
            final_report := s.final_report }

/-- The seen-set filtering of validate_node as a standalone function:
keep the first occurrence of every note text not already in seen. -/
def dedupNotes (seen : List String) : List (String × String) → List (String × String)
  | [] => []
  | p :: rest =>
    if seen.contains p.2 then dedupNotes seen rest
    else p :: dedupNotes (p.2 :: seen) rest

/-- The content extractor as the spec describes it: the first available
region among an article element, a main element and the whole body; the
empty string when none exists; otherwise the newline-joined text of the
heading and paragraph elements whose trimmed text is longer than 40
characters, truncated to 1200 characters. -/
def extractSpec (h : Html) : String :=
  let region :=
    match h.article with
    | some a => some a
    | none =>
      match h.mainTag with
      | some m => some m
      | none => h.body
  match region with
  | none => ""
  | some elems =>
    pyTake 1200 (String.intercalate "\n"
      (elems.filterMap fun e =>
        if (e.tag = "p" ∨ e.tag = "h1" ∨ e.tag = "h2" ∨ e.tag = "h3") ∧ 40 < e.text.length
        then some e.text else none))

/-- A state holding one extracted note, used to exhibit the behavior of
a repeated Validate call. -/
def sDup : ResearchState :=
  { topic := "t", mode := .shallow, extracted_notes := [("u", "a")] }

/-- The state of the dedup example: duplicate note text under two URLs,
plus a distinct note, and empty validated lists. -/
def sDedup : ResearchState :=
  { topic := "t", mode := .shallow,
    extracted_notes := [("u1", "same text"), ("u2", "same text"), ("u3", "other")] }

/-- A page body whose article region holds one paragraph longer than 40
characters. -/
def htmlLong : Html :=
  { article := some [⟨"p", "this text is long enough to pass the forty character filter"⟩]
    mainTag := none
    body := none }

/-- The text extract_clean_text produces from htmlLong. -/
def textLong : String := "this text is long enough to pass the forty character filter"

/-- The planner reply of the end-to-end scenario: two subtopics, depth
budget one. -/
def planW : ResearchPlan :=
  { subtopics := ["history", "applications"]
    depth_required := 1
    requires_math := false
    requires_sources := false }

/-- A search environment whose tools return no URLs. -/
def envTrivial : SearchEnv :=
  { toolResults := [], fetchEnv := fun _ => (0, .transportError) }

/-- A search environment with one tool returning one URL whose fetch
succeeds with htmlLong. -/
def envOneUrl : SearchEnv :=
  { toolResults := [some ([], ["uA"])], fetchEnv := fun _ => (1, .response 200 htmlLong) }

/-- The state after plan and one search in the envOneUrl run. -/
def sAfterSearch : ResearchState :=
  search_node envOneUrl (plan_node planW (initState "t" Mode.shallow))

/-- A completed final state whose report stayed empty. -/
def sEmptyReport : ResearchState :=
  { topic := "q", mode := .shallow, final_report := "" }

/-- A Python slice s[:n] has at most n characters. -/
theorem pyTake_length_le (n : Nat) (s : String) : (pyTake n s).length ≤ n := by
  show (s.data.take n).length ≤ n
  simp [List.length_take]

/-- The extractor output never exceeds 1200 characters. -/
theorem extract_clean_text_le (h : Html) : (extract_clean_text h).length ≤ 1200 := by
  unfold extract_clean_text
  split
  · simp [String.length]
  · exact pyTake_length_le 1200 _

/-- The validate fold appends exactly the first-occurrence notes, and
their URLs, to the two accumulated lists. -/
theorem validate_foldl (notes : List (String × String)) :
    ∀ seen vn vs : List String,
      (notes.foldl validateStep (seen, vn, vs)).2.1 =
          vn ++ (dedupNotes seen notes).map Prod.snd ∧
        (notes.foldl validateStep (seen, vn, vs)).2.2 =
          vs ++ (dedupNotes seen notes).map Prod.fst := by
  induction notes with
  | nil => intro seen vn vs; simp [dedupNotes]
  | cons p rest ih =>
    intro seen vn vs
    by_cases hc : p.2 ∈ seen
    · simpa [validateStep, hc, dedupNotes] using ih seen vn vs
    · simpa [validateStep, hc, dedupNotes, List.append_assoc] using
        ih (p.2 :: seen) (vn ++ [p.2]) (vs ++ [p.1])

/-- validate_node leaves extracted_notes untouched. -/
theorem validate_node_extracted (s : ResearchState) :
    (validate_node s).extracted_notes = s.extracted_notes := rfl

/-- validate_node leaves depth untouched. -/
theorem validate_node_depth (s : ResearchState) : (validate_node s).depth = s.depth := rfl

/-- validate_node leaves max_depth untouched. -/
theorem validate_node_max_depth (s : ResearchState) :
    (validate_node s).max_depth = s.max_depth := rfl

/-- validate_node leaves remaining_subtopics untouched. -/
theorem validate_node_remaining (s : ResearchState) :
    (validate_node s).remaining_subtopics = s.remaining_subtopics := rfl

/-- What one validate_node call does: append the deduplicated note
texts and their first URLs to the existing validated lists. -/
theorem validate_node_eq (s : ResearchState) :
    validate_node s =
      { s with
        validated_notes :=
          s.validated_notes ++ (dedupNotes [] s.extracted_notes).map Prod.snd
        validated_sources :=
          s.validated_sources ++ (dedupNotes [] s.extracted_notes).map Prod.fst } := by
  have h := validate_foldl s.extracted_notes [] s.validated_notes s.validated_sources
  simp [validate_node, h.1, h.2]

/-- search_node is a no-op when no subtopic remains. -/
theorem search_node_nil (env : SearchEnv) (s : ResearchState)
    (h : s.remaining_subtopics = []) : search_node env s = s := by
  simp [search_node, h]

/-- What one search_node call does when a subtopic remains. -/
theorem search_node_cons (env : SearchEnv) (s : ResearchState) (x : String)
    (rest : List String) (h : s.remaining_subtopics = x :: rest) :
    search_node env s =
      { s with
        depth := s.depth + 1
        remaining_subtopics := rest
        extracted_notes :=
          s.extracted_notes ++
            fetch_all (((call_search_tools env.toolResults).2).enum.map
              fun iu => (iu.2, env.fetchEnv iu.1)) } := by
  simp [search_node, h]

/-- Unrolling of the fold inside call_search_tools. -/
theorem call_search_tools_foldl (rs : List (Option (List String × List String))) :
    ∀ ts us : List String,
      rs.foldl
          (fun acc r =>
            match r with
            | none => acc
            | some (t, u) => (acc.1 ++ t, acc.2 ++ u))
          (ts, us) =
        (ts ++ ((rs.filterMap id).map Prod.fst).flatten,
          us ++ ((rs.filterMap id).map Prod.snd).flatten) := by
  induction rs with
  | nil => intro ts us; simp
  | cons r rest ih =>
    intro ts us
    cases r with
    | none => simpa using ih ts us
    | some tu => simpa [List.append_assoc] using ih (ts ++ tu.1) (us ++ tu.2)

/-- A fetch that exceeds the timeout contributes nothing. -/
theorem fetch_page_timeout (url : String) (e : Nat) (o : FetchOutcome)
    (h : fetchTimeout < e) : fetch_page url e o = none := by
  simp [fetch_page, h]

/-- A non-200 response contributes nothing. -/
theorem fetch_page_non200 (url : String) (e : Nat) (st : Nat) (html : Html)
    (h : st ≠ 200) : fetch_page url e (.response st html) = none := by
  unfold fetch_page
  split
  · rfl
  · simp [h]

/-- A successful fetch_page result carries the fetched URL and a
non-empty text of at most 1200 characters. -/
theorem fetch_page_sound (url : String) (e : Nat) (o : FetchOutcome) (p : String × String)
    (h : fetch_page url e o = some p) : p.2 ≠ "" ∧ p.2.length ≤ 1200 ∧ p.1 = url := by
  by_cases ht : fetchTimeout < e
  · rw [fetch_page_timeout url e o ht] at h
    exact absurd h (by simp)
  · cases o with
    | transportError => simp [fetch_page, ht] at h
    | response st html =>
      by_cases h200 : st = 200
      · simp only [fetch_page, ht, if_false, h200, if_true, reduceIte] at h
        by_cases hne : extract_clean_text html = ""
        · simp [hne] at h
        · rw [if_pos hne] at h
          have hp : (url, extract_clean_text html) = p := by simpa using h
          subst hp
          exact ⟨hne, extract_clean_text_le html, rfl⟩
      · rw [fetch_page_non200 url e st html h200] at h
        exact absurd h (by simp)

/-- Membership in the fetch fan-out output is exactly success of some
individual fetch. -/
theorem mem_fetch_all (p : String × String) (fetches : List (String × Nat × FetchOutcome)) :
    p ∈ fetch_all fetches ↔ ∃ f ∈ fetches, fetch_page f.1 f.2.1 f.2.2 = some p := by
  simp [fetch_all, List.mem_filterMap, List.mem_map]

/-- One unrolling of the loop driver. -/
theorem loopRun_succ (envs : Nat → SearchEnv) (fuel i : Nat) (s : ResearchState) :
    loopRun envs (fuel + 1) i s =
      if should_continue (validate_node (search_node (envs i) s)) then
        ((loopRun envs fuel (i + 1) (validate_node (search_node (envs i) s))).1 + 1,
          (loopRun envs fuel (i + 1) (validate_node (search_node (envs i) s))).2)
      else (1, validate_node (search_node (envs i) s)) := rfl

/-- The Boolean loop guard, read as a proposition. -/
theorem should_continue_iff (s : ResearchState) :
    should_continue s = true ↔ (s.depth < s.max_depth ∧ s.remaining_subtopics ≠ []) := by
  simp [should_continue, List.length_pos]

/-- Behavior of the loop driver entered with a non-empty subtopic queue
and an unexhausted depth budget, under enough fuel: it stops exactly
when the guard fails, runs the body once per depth increment, and never
drives depth past the budget. -/
theorem loopRun_go (envs : Nat → SearchEnv) :
    ∀ (fuel i : Nat) (s : ResearchState),
      s.remaining_subtopics ≠ [] →
      s.remaining_subtopics.length < fuel →
      s.depth < s.max_depth →
      should_continue (loopRun envs fuel i s).2 = false ∧
        ((loopRun envs fuel i s).1 : Int) = (loopRun envs fuel i s).2.depth - s.depth ∧
        (loopRun envs fuel i s).2.depth ≤ s.max_depth ∧
        (loopRun envs fuel i s).2.max_depth = s.max_depth := by
  intro fuel
  induction fuel with
  | zero =>
    intro i s hne hlen hdm
    exact absurd hlen (by simp)
  | succ fuel ih =>
    intro i s hne hlen hdm
    obtain ⟨x, rest, hr⟩ : ∃ x rest, s.remaining_subtopics = x :: rest := by
      cases hcs : s.remaining_subtopics with
      | nil => exact absurd hcs hne
      | cons a b => exact ⟨a, b, rfl⟩
    have hsearch := search_node_cons (envs i) s x rest hr
    have h1d : (validate_node (search_node (envs i) s)).depth = s.depth + 1 := by
      rw [validate_node_depth, hsearch]
    have h1m : (validate_node (search_node (envs i) s)).max_depth = s.max_depth := by
      rw [validate_node_max_depth, hsearch]
    have h1r : (validate_node (search_node (envs i) s)).remaining_subtopics = rest := by
      rw [validate_node_remaining, hsearch]
    rw [loopRun_succ]
    by_cases hsc : should_continue (validate_node (search_node (envs i) s)) = true
    · rw [if_pos hsc]
      dsimp only
      obtain ⟨hd1, hrest⟩ := (should_continue_iff _).mp hsc
      have hlen1 : (validate_node (search_node (envs i) s)).remaining_subtopics.length < fuel := by
        rw [h1r]
        have : s.remaining_subtopics.length = rest.length + 1 := by rw [hr]; rfl
        omega
      obtain ⟨g1, g2, g3, g4⟩ := ih (i + 1) (validate_node (search_node (envs i) s)) hrest hlen1 hd1
      refine ⟨g1, ?_, ?_, ?_⟩
      · have h2 := g2
        rw [h1d] at h2
        omega
      · rw [h1m] at g3; exact g3
      · rw [h1m] at g4; exact g4
    · rw [if_neg hsc]
      refine ⟨by simpa using hsc, ?_, ?_, h1m⟩
      · rw [h1d]; push_cast; omega
      · rw [h1d]; omega

/-- C1: the spec claims Validate is idempotent; the code refutes it.  On
a state holding one extracted note, the second Validate call appends the
note and its URL again, because the seen-set is rebuilt empty on every
call and the validated lists are never consulted. -/
theorem validate_twice_counterexample :
    (validate_node sDup).extracted_notes = sDup.extracted_notes ∧
      (validate_node (validate_node sDup)).validated_notes ≠
        (validate_node sDup).validated_notes ∧
      (validate_node (validate_node sDup)).validated_sources ≠
        (validate_node sDup).validated_sources := by
  decide

/-- C1 (amended): running Validate twice in succession with no new
extracted_notes does not leave the validated lists unchanged: the second
call appends one more entry per distinct note text — the deduplicated
note/URL sequence of extracted_notes is appended again in full. -/
theorem validate_twice_appends (s : ResearchState) :
    (validate_node (validate_node s)).validated_notes =
        (validate_node s).validated_notes ++
          (dedupNotes [] s.extracted_notes).map Prod.snd ∧
      (validate_node (validate_node s)).validated_sources =
        (validate_node s).validated_sources ++
          (dedupNotes [] s.extracted_notes).map Prod.fst := by
  have h2 := validate_node_eq (validate_node s)
  constructor
  · rw [h2, validate_node_extracted]
  · rw [h2, validate_node_extracted]

/-- C3: a single Validate call on empty validated lists deduplicates
extracted_notes by note text, keeping the first URL for a duplicate
text. -/
theorem validate_dedup_example :
    sDedup.validated_notes = [] ∧
      sDedup.validated_sources = [] ∧
      sDedup.extracted_notes =
        [("u1", "same text"), ("u2", "same text"), ("u3", "other")] ∧
      (validate_node sDedup).validated_notes = ["same text", "other"] ∧
      (validate_node sDedup).validated_sources = ["u1", "u3"] := by
  decide

/-- C5: for every assignment of outcomes to the registered search tools,
call_search_tools concatenates the non-failing tools' texts and urls in
registration order; when every tool fails it returns two empty
sequences; and with three of four tools raising and one returning
(["t"], ["http://x"]), the result is (["t"], ["http://x"]). -/
theorem call_search_tools_spec :
    (∀ rs : List (Option (List String × List String)),
        call_search_tools rs =
          (((rs.filterMap id).map Prod.fst).flatten,
            ((rs.filterMap id).map Prod.snd).flatten)) ∧
      (∀ rs : List (Option (List String × List String)),
          (∀ r ∈ rs, r = none) → call_search_tools rs = ([], [])) ∧
      call_search_tools [none, none, some (["t"], ["http://x"]), none] =
        (["t"], ["http://x"]) := by
  have hmain : ∀ rs : List (Option (List String × List String)),
      call_search_tools rs =
        (((rs.filterMap id).map Prod.fst).flatten,
          ((rs.filterMap id).map Prod.snd).flatten) := by
    intro rs
    simpa [call_search_tools] using call_search_tools_foldl rs [] []
  refine ⟨hmain, ?_, by decide⟩
  intro rs hall
  rw [hmain]
  have hnil : rs.filterMap id = [] := by
    rw [List.filterMap_eq_nil_iff]
    intro a ha
    rw [hall a ha]
    rfl
  simp [hnil]

/-- C5 witness: all four tools failing yields two empty sequences. -/
theorem call_search_tools_spec_witness :
    call_search_tools [none, none, none, none] = ([], []) :=
  call_search_tools_spec.2.1 [none, none, none, none] (by decide)

/-- C6: the fetch fan-out returns a pair only for URLs whose fetch
succeeded with non-empty extracted text; a fetch exceeding the timeout
is dropped without affecting its siblings; a non-2xx response
contributes nothing; and with URL A succeeding on a page holding a
paragraph longer than 40 characters while URL B times out, the result
is exactly the pair for A. -/
theorem fetch_isolation :
    (∀ (fetches : List (String × Nat × FetchOutcome)) (p : String × String),
        p ∈ fetch_all fetches →
          p.2 ≠ "" ∧ ∃ f ∈ fetches, fetch_page f.1 f.2.1 f.2.2 = some p) ∧
      (∀ (l1 l2 : List (String × Nat × FetchOutcome)) (u : String) (e : Nat)
          (o : FetchOutcome), fetchTimeout < e →
          fetch_all (l1 ++ (u, e, o) :: l2) = fetch_all (l1 ++ l2)) ∧
      (∀ (u : String) (e st : Nat) (html : Html), st ≠ 200 →
          fetch_page u e (.response st html) = none) ∧
      fetch_all
          [("A", 1, .response 200 htmlLong), ("B", 10, .response 200 htmlLong)] =
        [("A", textLong)] := by
  refine ⟨?_, ?_, ?_, by decide⟩
  · intro fetches p hp
    rw [mem_fetch_all] at hp
    obtain ⟨f, hf, hfp⟩ := hp
    exact ⟨(fetch_page_sound f.1 f.2.1 f.2.2 p hfp).1, f, hf, hfp⟩
  · intro l1 l2 u e o he
    simp [fetch_all, fetch_page_timeout u e o he]
  · intro u e st html hst
    exact fetch_page_non200 u e st html hst

/-- C6 witness: the isolation equation at the concrete timed-out fetch,
the non-200 drop at status 404, and the success characterization at the
concrete successful pair. -/
theorem fetch_isolation_witness :
    fetchTimeout < 10 ∧
      fetch_all
          [("A", 1, FetchOutcome.response 200 htmlLong),
            ("B", 10, FetchOutcome.response 200 htmlLong)] =
        fetch_all [("A", 1, FetchOutcome.response 200 htmlLong)] ∧
      fetch_page "B" 3 (FetchOutcome.response 404 htmlLong) = none ∧
      (textLong ≠ "" ∧
        ∃ f ∈ [("A", 1, FetchOutcome.response 200 htmlLong)],
          fetch_page f.1 f.2.1 f.2.2 = some ("A", textLong)) :=
  ⟨by decide,
    fetch_isolation.2.1 [("A", 1, .response 200 htmlLong)] [] "B" 10
      (.response 200 htmlLong) (by decide),
    fetch_isolation.2.2.1 "B" 3 404 htmlLong (by decide),
    fetch_isolation.1 [("A", 1, .response 200 htmlLong)] ("A", textLong) (by decide)⟩

/-- C8: a run that returns without raising but with an empty
final_report is reported as a synthesis error by the request boundary,
not returned as a success; a non-empty report is returned as the
success record. -/
theorem empty_report_synthesis_error (query : String) (s : ResearchState)
    (hq : pyStripWs query ≠ "") :
    (s.final_report = "" → research query (.ok s) = .error .synthesisError) ∧
      (s.final_report ≠ "" →
        research query (.ok s) =
          .ok { topic := s.topic, plan := s.plan,
                validated_notes := s.validated_notes,
                validated_sources := s.validated_sources,
                final_report := s.final_report }) := by
  constructor
  · intro hr
    simp [research, hq, hr]
  · intro hr
    simp [research, hq, hr]

/-- C8 witness: a concrete completed state with an empty report is
rejected as a synthesis error. -/
theorem empty_report_synthesis_error_witness :
    pyStripWs "q" ≠ "" ∧ sEmptyReport.final_report = "" ∧
      research "q" (.ok sEmptyReport) = .error .synthesisError :=
  ⟨by decide, rfl, (empty_report_synthesis_error "q" sEmptyReport (by decide)).1 rfl⟩

/-- A filterMap whose function is an if-some-else-none is the filter of
the condition followed by the map, for the claim-entry builder. -/
theorem claims_filterMap (l : List (Nat × String)) :
    (l.filterMap fun il =>
        if pyStripWs il.2 ≠ "" then
          some
            ({ id := "CL-" ++ toString il.1
               statement := pyStrip "- " il.2
               source := "Validated Source"
               support_score := 85
               has_contradiction := false } : ClaimEntry)
        else none) =
      (l.filter fun il => pyStripWs il.2 ≠ "").map fun il =>
        { id := "CL-" ++ toString il.1
          statement := pyStrip "- " il.2
          source := "Validated Source"
          support_score := 85
          has_contradiction := false } := by
  induction l with
  | nil => rfl
  | cons x rest ih =>
    by_cases hx : pyStripWs x.2 = ""
    · simp [hx]
      simpa using ih
    · simp [hx]
      simpa using ih

/-- C7 counterexample: on the report "A\nB\nC" (three lines separated
by real newline characters), the spec predicts three claims CL-0 "A",
CL-1 "B", CL-2 "C", but the code splits on the literal backslash-n
sequence and emits a single claim CL-0 holding the whole report. -/
theorem final_result_counterexample :
    "A\nB\nC" ≠ "" ∧
      mkFinalResult "A\nB\nC" ["u"] ≠ mkFinalResultClaimed "A\nB\nC" ["u"] ∧
      (mkFinalResult "A\nB\nC" ["u"]).claims.map ClaimEntry.statement = ["A\nB\nC"] ∧
      (mkFinalResultClaimed "A\nB\nC" ["u"]).claims.map ClaimEntry.statement =
        ["A", "B", "C"] := by
  decide

/-- C7 (amended): the final_result event carries, among the first three
segments of final_report split on the literal backslash-n sequence, the
non-blank ones, each reframed as a claim identified by its segment
index, with the fixed placeholder support score and no-contradiction
flag, plus the confidence block derived from the validated_sources
count, plus the full report text. -/
theorem final_result_amended (report : String) (srcs : List String) :
    mkFinalResult report srcs = mkFinalResultAmended report srcs := by
  unfold mkFinalResult mkFinalResultAmended
  rw [claims_filterMap]

/-- The element filter of the extractor agrees with the spec's
description of it. -/
theorem extract_filter_eq (elems : List Element) :
    (elems.filter fun p =>
          contentTags.contains p.tag && decide (40 < p.text.length)).map Element.text =
      elems.filterMap fun e =>
        if (e.tag = "p" ∨ e.tag = "h1" ∨ e.tag = "h2" ∨ e.tag = "h3") ∧ 40 < e.text.length
        then some e.text else none := by
  have hiff : ∀ t : String,
      t ∈ contentTags ↔ (t = "p" ∨ t = "h1" ∨ t = "h2" ∨ t = "h3") := by
    intro t
    simp [contentTags]
  induction elems with
  | nil => rfl
  | cons e rest ih =>
    by_cases hc :
        (e.tag = "p" ∨ e.tag = "h1" ∨ e.tag = "h2" ∨ e.tag = "h3") ∧ 40 < e.text.length
    · have hmem : e.tag ∈ contentTags := (hiff e.tag).mpr hc.1
      simp [hmem, hc, hc.2]
      simpa using ih
    · by_cases hlen : 40 < e.text.length
      · have hm : e.tag ∉ contentTags := fun hmem => hc ⟨(hiff e.tag).mp hmem, hlen⟩
        simp [hm, hc]
        simpa using ih
      · simp [hlen, hc]
        simpa using ih

/-- C9: the extractor selects the first region among article, main and
body, returns the empty string when none exists, otherwise the
newline-joined text of the kept heading and paragraph elements longer
than 40 characters, and its output never exceeds 1200 characters. -/
theorem extract_clean_text_spec :
    (∀ h : Html, extract_clean_text h = extractSpec h) ∧
      ∀ h : Html, (extract_clean_text h).length ≤ 1200 := by
  refine ⟨?_, extract_clean_text_le⟩
  intro h
  obtain ⟨oa, om, ob⟩ := h
  cases oa with
  | some a =>
    show pyTake 1200 _ = pyTake 1200 _
    rw [extract_filter_eq]
  | none =>
    cases om with
    | some m =>
      show pyTake 1200 _ = pyTake 1200 _
      rw [extract_filter_eq]
    | none =>
      cases ob with
      | some b =>
        show pyTake 1200 _ = pyTake 1200 _
        rw [extract_filter_eq]
      | none => rfl

/-- synthesize_node leaves remaining_subtopics untouched. -/
theorem synthesize_node_remaining (r : String) (s : ResearchState) :
    (synthesize_node r s).remaining_subtopics = s.remaining_subtopics := rfl

/-- synthesize_node leaves depth untouched. -/
theorem synthesize_node_depth (r : String) (s : ResearchState) :
    (synthesize_node r s).depth = s.depth := rfl

/-- C2: with a planner budget of at least one, the search-validate loop
body runs at most max_depth times; the loop repeats exactly when depth
is below max_depth and subtopics remain, re-checked after every pair;
and at exit the subtopic queue is empty or depth equals max_depth. -/
theorem loop_bound (p : ResearchPlan) (envs : Nat → SearchEnv) (report topic : String)
    (mode : Mode) (hd : 1 ≤ p.depth_required) :
    ((runPipeline p envs report topic mode).1 : Int) ≤ p.depth_required ∧
      ((runPipeline p envs report topic mode).2.remaining_subtopics = [] ∨
        (runPipeline p envs report topic mode).2.depth = p.depth_required) ∧
      ∀ s : ResearchState,
        should_continue s = true ↔ s.depth < s.max_depth ∧ s.remaining_subtopics ≠ [] := by
  have hrp : runPipeline p envs report topic mode =
      ((loopRun envs ((plan_node p (initState topic mode)).remaining_subtopics.length + 1) 0
          (plan_node p (initState topic mode))).1,
        synthesize_node report
          (loopRun envs ((plan_node p (initState topic mode)).remaining_subtopics.length + 1) 0
            (plan_node p (initState topic mode))).2) := rfl
  have key : ((runPipeline p envs report topic mode).1 : Int) ≤ p.depth_required ∧
      ((runPipeline p envs report topic mode).2.remaining_subtopics = [] ∨
        (runPipeline p envs report topic mode).2.depth = p.depth_required) := by
    by_cases hsub : p.subtopics = []
    · have hs1r : (plan_node p (initState topic mode)).remaining_subtopics = [] := hsub
      have hsn : search_node (envs 0) (plan_node p (initState topic mode)) =
          plan_node p (initState topic mode) := search_node_nil _ _ hs1r
      have hguard : should_continue (validate_node (search_node (envs 0)
          (plan_node p (initState topic mode)))) = false := by
        rw [hsn]
        simp [should_continue, validate_node_remaining, hs1r]
      have hloop : loopRun envs
          ((plan_node p (initState topic mode)).remaining_subtopics.length + 1) 0
          (plan_node p (initState topic mode)) =
          (1, validate_node (plan_node p (initState topic mode))) := by
        rw [loopRun_succ, if_neg (by simp [hguard]), hsn]
      rw [hrp, hloop]
      dsimp only
      constructor
      · omega
      · left
        rw [synthesize_node_remaining, validate_node_remaining]
        exact hs1r
    · have hne : (plan_node p (initState topic mode)).remaining_subtopics ≠ [] := hsub
      have hlen : (plan_node p (initState topic mode)).remaining_subtopics.length <
          (plan_node p (initState topic mode)).remaining_subtopics.length + 1 :=
        Nat.lt_succ_self _
      have hdm : (plan_node p (initState topic mode)).depth <
          (plan_node p (initState topic mode)).max_depth := by
        show (0 : Int) < p.depth_required
        omega
      obtain ⟨g1, g2, g3, g4⟩ := loopRun_go envs
        ((plan_node p (initState topic mode)).remaining_subtopics.length + 1) 0
        (plan_node p (initState topic mode)) hne hlen hdm
      set r := loopRun envs
        ((plan_node p (initState topic mode)).remaining_subtopics.length + 1) 0
        (plan_node p (initState topic mode)) with hrdef
      have h0 : (plan_node p (initState topic mode)).depth = 0 := rfl
      have hm : (plan_node p (initState topic mode)).max_depth = p.depth_required := rfl
      rw [h0] at g2
      rw [hm] at g3 g4
      have hnot : ¬(r.2.depth < r.2.max_depth ∧ r.2.remaining_subtopics ≠ []) := by
        intro hA
        have hB := (should_continue_iff r.2).mpr hA
        rw [g1] at hB
        exact Bool.false_ne_true hB
      rw [hrp]
      dsimp only
      constructor
      · omega
      · by_cases hre : r.2.remaining_subtopics = []
        · left
          rw [synthesize_node_remaining]
          exact hre
        · right
          rw [synthesize_node_depth]
          have hge : ¬(r.2.depth < r.2.max_depth) := fun hlt => hnot ⟨hlt, hre⟩
          omega
  exact ⟨key.1, key.2, fun s => should_continue_iff s⟩

/-- C2 witness: the end-to-end scenario — two planned subtopics but a
depth budget of one yields exactly one loop-body execution. -/
theorem loop_bound_witness :
    (1 : Int) ≤ planW.depth_required ∧
      (((runPipeline planW (fun _ => envTrivial) "r" "Neural Networks" Mode.shallow).1 :
          Int) ≤ planW.depth_required ∧
        ((runPipeline planW (fun _ => envTrivial) "r" "Neural Networks"
              Mode.shallow).2.remaining_subtopics = [] ∨
          (runPipeline planW (fun _ => envTrivial) "r" "Neural Networks"
              Mode.shallow).2.depth = planW.depth_required)) :=
  ⟨by decide,
    (loop_bound planW (fun _ => envTrivial) "r" "Neural Networks" Mode.shallow (by decide)).1,
    (loop_bound planW (fun _ => envTrivial) "r" "Neural Networks" Mode.shallow (by decide)).2.1⟩

/-- The state after plan and one url-yielding search is reachable. -/
theorem reach_sAfterSearch : Reachable "t" Mode.shallow sAfterSearch :=
  Relation.ReflTransGen.tail
    (Relation.ReflTransGen.single (Step.plan planW (initState "t" Mode.shallow)))
    (Step.search envOneUrl (plan_node planW (initState "t" Mode.shallow)))

/-- C4: in every reachable state the validated lists have equal length —
every node appends to both in lockstep or touches neither. -/
theorem alignment_invariant (topic : String) (mode : Mode) (s : ResearchState)
    (h : Reachable topic mode s) :
    s.validated_notes.length = s.validated_sources.length := by
  have hrel : Relation.ReflTransGen Step (initState topic mode) s := h
  clear h
  induction hrel with
  | refl => rfl
  | tail hab hbc ih =>
    rename_i b c
    cases hbc with
    | plan q => simpa [plan_node] using ih
    | search env =>
      cases hrem : b.remaining_subtopics with
      | nil => rwa [search_node_nil env b hrem]
      | cons x rest =>
        rw [search_node_cons env b x rest hrem]
        simpa using ih
    | validate =>
      rw [validate_node_eq b]
      simp [ih]
    | synthesize r => simpa [synthesize_node] using ih

/-- C4 witness: alignment at the reachable state after plan, search and
validate, where one note has been validated. -/
theorem alignment_invariant_witness :
    (validate_node sAfterSearch).validated_notes.length =
      (validate_node sAfterSearch).validated_sources.length :=
  alignment_invariant "t" Mode.shallow (validate_node sAfterSearch)
    (Relation.ReflTransGen.tail reach_sAfterSearch (Step.validate sAfterSearch))

/-- C10: in every reachable state, every extracted note has non-empty
text of at most 1200 characters — the search step appends only
successful fetches, whose text passed the extractor's truncation and
non-emptiness checks. -/
theorem extracted_notes_bounded (topic : String) (mode : Mode) (s : ResearchState)
    (h : Reachable topic mode s) :
    ∀ p ∈ s.extracted_notes, p.2 ≠ "" ∧ p.2.length ≤ 1200 := by
  have hrel : Relation.ReflTransGen Step (initState topic mode) s := h
  clear h
  induction hrel with
  | refl =>
    intro p hp
    simp [initState] at hp
  | tail hab hbc ih =>
    intro p hp
    rename_i b c
    cases hbc with
    | plan q => exact ih p (by simpa [plan_node] using hp)
    | validate => exact ih p (by rwa [validate_node_extracted] at hp)
    | synthesize r => exact ih p (by simpa [synthesize_node] using hp)
    | search env =>
      cases hrem : b.remaining_subtopics with
      | nil =>
        rw [search_node_nil env b hrem] at hp
        exact ih p hp
      | cons x rest =>
        rw [search_node_cons env b x rest hrem] at hp
        simp only [List.mem_append] at hp
        rcases hp with hp | hp
        · exact ih p hp
        · rw [mem_fetch_all] at hp
          obtain ⟨f, hf, hfp⟩ := hp
          have hs := fetch_page_sound f.1 f.2.1 f.2.2 p hfp
          exact ⟨hs.1, hs.2.1⟩

/-- C10 witness: the bound instantiated at the reachable state holding
one concrete fetched note. -/
theorem extracted_notes_bounded_witness :
    textLong ≠ "" ∧ textLong.length ≤ 1200 :=
  extracted_notes_bounded "t" Mode.shallow sAfterSearch reach_sAfterSearch
    ("uA", textLong) (by decide)

end ResearchAgent
